import Mathlib

/-!
Verification development for the VCM_Overlay repository.

The definitions below are a shallow embedding of the Python source:

* `firebase_service.py` — `save_parameter_to_firebase`, `check_parameter_changes`,
  `extract_values_from_details`, the token-refresh retry handler;
* `vcm_overlay.py` — the inline parameter-text parsing of `update_parameter_info`,
  `find_edit_controls`, `is_parameter_text`, `auto_detect_parameter_edit_control`,
  `ManagePendingDialog.approve_parameter` / `reject_parameter`;
* `manage_pending.py` — the CLI approve/reject actions.

Python strings are modelled as Lean `String`s, observed through explicit
re-implementations of the Python string operations used by the source
(`split`, `strip`, `startswith`, substring membership, `split(sep, 1)`).
Firestore documents are modelled as string-keyed association lists observed
only through `Doc.get?`; collections are lists of (document id, document).
-/

set_option autoImplicit false

namespace VCM

/-! ## Python string primitives -/

/-- Python whitespace for `str.split()` / `str.strip()`. -/
def isPyWs (c : Char) : Bool :=
  c = ' ' || c = '\t' || c = '\n' || c = '\r' || c = '\x0b' || c = '\x0c'

/-- Tests that `pat` is a leading segment of `l` (Python `startswith` over char lists). -/
def listLeadsWith : List Char → List Char → Bool
  | [], _ => true
  | _ :: _, [] => false
  | a :: as, b :: bs => a == b && listLeadsWith as bs

/-- Python `s.startswith(p)`. -/
def pyStartsWith (s p : String) : Bool :=
  listLeadsWith p.toList s.toList

/-- Python `s.endswith(p)`. -/
def pyEndsWith (s p : String) : Bool :=
  listLeadsWith p.toList.reverse s.toList.reverse

/-- Python `s.strip()`: remove leading and trailing whitespace. -/
def pyStrip (s : String) : String :=
  String.mk (((s.toList.dropWhile isPyWs).reverse.dropWhile isPyWs).reverse)

/-- Python `s.strip(chars)`: remove leading and trailing characters drawn from `chars`. -/
def pyStripChars (chars s : String) : String :=
  let mem := fun c => chars.toList.contains c
  String.mk (((s.toList.dropWhile mem).reverse.dropWhile mem).reverse)

/-- Split `l` at the first occurrence of `sep`, returning the parts before and after.
`none` when `sep` does not occur.  Models Python `s.split(sep, 1)` / `sep in s`. -/
def splitFirstAux (sep : List Char) : List Char → Option (List Char × List Char)
  | [] => if sep.isEmpty then some ([], []) else none
  | c :: rest =>
    if listLeadsWith sep (c :: rest) then some ([], (c :: rest).drop sep.length)
    else (splitFirstAux sep rest).map (fun p => (c :: p.1, p.2))

def splitFirst (s sep : String) : Option (String × String) :=
  (splitFirstAux sep.toList s.toList).map (fun p => (String.mk p.1, String.mk p.2))

/-- Python `sub in s`. -/
def pyIn (sub s : String) : Bool := (splitFirst s sub).isSome

/-- Python `s.split(sep, 1)[0]` (the whole of `s` when `sep` is absent). -/
def beforeFirst (s sep : String) : String :=
  ((splitFirst s sep).map Prod.fst).getD s

/-- Python `s.split(sep, 1)[1]` when it exists. -/
def afterFirst? (s sep : String) : Option String :=
  (splitFirst s sep).map Prod.snd

/-- Python `s.split(None, n)` over char lists: split on whitespace runs with at
most `n` splits; the final chunk keeps internal and trailing whitespace. -/
def pySplitWsTokens (n : Nat) (l : List Char) : List (List Char) :=
  let l1 := l.dropWhile isPyWs
  if l1.isEmpty then []
  else match n with
    | 0 => [l1]
    | m + 1 =>
      l1.takeWhile (fun c => !isPyWs c) :: pySplitWsTokens m (l1.dropWhile (fun c => !isPyWs c))

/-- Python `text.split(None, 2)`. -/
def pySplitMax2 (s : String) : List String :=
  (pySplitWsTokens 2 s.toList).map String.mk

/-- Python `text.split()[0] if text.split() else ""`. -/
def headToken (s : String) : String :=
  String.mk ((s.toList.dropWhile isPyWs).takeWhile (fun c => !isPyWs c))

/-- Longest digit run at the start of `s`; models `re.match(r'(\d+)', s)`. -/
def leadingDigits (s : String) : String :=
  String.mk (s.toList.takeWhile Char.isDigit)

/-- Python `s.lower()` (ASCII). -/
def pyLower (s : String) : String :=
  String.mk (s.toList.map Char.toLower)

/-! ## Parameter text parsing (vcm_overlay.py, `update_parameter_info`, lines 1660-1712) -/

structure ParsedParam where
  ptype : String
  pid : Option String
  name : String
  desc : String
deriving Repr, DecidableEq

/-- Source: `if name_part.startswith('- '): name_part = name_part[2:] elif name_part.startswith('-'): ...` -/
def stripLeadingDash (s : String) : String :=
  if pyStartsWith s "- " then s.drop 2
  else if pyStartsWith s "-" then s.drop 1
  else s

/-- The inline parameter-text parsing of `VCMOverlay.update_parameter_info`:
type from the bracketed header token, id from the digit run of the second token,
name/description from the remainder split at the first colon. -/
def update_parameter_info_parse (text : String) : ParsedParam :=
  let header_part := headToken text
  let param_type := pyStripChars "[]" header_part
  let parts := pySplitMax2 text
  let param_id :=
    if parts.length ≥ 2 then
      let id_part := pyStrip (parts.getD 1 "")
      let ds := leadingDigits id_part
      if ds.isEmpty then none else some ds
    else none
  let nd :=
    if parts.length ≥ 3 then
      let remainder := pyStrip (parts.getD 2 "")
      match splitFirst remainder ":" with
      | some (name_part, desc_part) => (pyStrip (stripLeadingDash name_part), pyStrip desc_part)
      | none => (pyStrip (stripLeadingDash remainder), "")
    else ("", "")
  ⟨param_type, param_id, nd.1, nd.2⟩

/-! ## Old/new value extraction (firebase_service.py, `extract_values_from_details`, lines 767-828) -/

/-- Source: `if old_part.endswith(","): old_part = old_part[:-1].strip()` -/
def stripTrailingComma (s : String) : String :=
  if pyEndsWith s "," then pyStrip (s.dropRight 1) else s

/-- Pattern (a): `"Old Value: X, New Value: Y"`.  When the second marker is missing
inside the tail, the Python `try` block has already assigned `old_value`, so only
`new_value` stays unset. -/
def oldNewPattern1 (details : String) : Option String × Option String :=
  match afterFirst? details "Old Value:" with
  | none => (none, none)
  | some split_old =>
    let old_part := stripTrailingComma (pyStrip (beforeFirst split_old "New Value:"))
    match afterFirst? split_old "New Value:" with
    | some new_part => (some old_part, some (pyStrip new_part))
    | none => (some old_part, none)

/-- Pattern (b): `"Changed from X to Y"`, split on the first `to` after `Changed from`. -/
def oldNewPattern2 (details : String) : Option String × Option String :=
  match afterFirst? details "Changed from" with
  | none => (none, none)
  | some split_changed =>
    let old_part := stripTrailingComma (pyStrip (beforeFirst split_changed "to"))
    match afterFirst? split_changed "to" with
    | some new_part => (some old_part, some (pyStrip new_part))
    | none => (some old_part, none)

/-- Pattern (c): positional heuristic over consecutive lines: after a line holding
a colon, treat the next line as the old value and the line after as the new value,
provided that third line is non-blank and colon-free. -/
def oldNewPattern3Lines : List String → Option String × Option String
  | l1 :: l2 :: l3 :: rest =>
    if pyIn ":" l1 && !(pyStrip l3).isEmpty && !pyIn ":" l3 then
      (some (pyStrip l2), some (pyStrip l3))
    else oldNewPattern3Lines (l2 :: l3 :: rest)
  | _ => (none, none)

/-- Model of `firebase_service.extract_values_from_details`: the three heuristics tried in
their source order, each guarded by the marker tests of the `if`/`elif` chain. -/
def extract_values_from_details (details : String) : Option String × Option String :=
  if pyIn "Old Value:" details && pyIn "New Value:" details then
    oldNewPattern1 details
  else if pyIn "Changed from" details && pyIn "to" details then
    oldNewPattern2 details
  else if pyIn ":" details then
    oldNewPattern3Lines (details.splitOn "\n")
  else (none, none)

/-! ## Window tree and control locator (vcm_overlay.py, lines 2030-2093, 1950-1957) -/

/-- A window: class name, current text, child windows. -/
inductive Win where
  | node (className : String) (text : String) (children : List Win)

def Win.className : Win → String
  | .node c _ _ => c

def Win.text : Win → String
  | .node _ t _ => t

def Win.children : Win → List Win
  | .node _ _ cs => cs

/-- Source: `"edit" in class_name.lower()` -/
def isEditClass (className : String) : Bool :=
  pyIn "edit" (pyLower className)

/-- The promotion guard inside `find_edit_controls`:
`text and (text.startswith('[ECM]') or text.startswith('[TCM]'))`. -/
def promoText (text : String) : Bool :=
  !text.isEmpty && (pyStartsWith text "[ECM]" || pyStartsWith text "[TCM]")

/-- One pass of the `enum_child_proc` callback over the enumerated children:
an edit-class control is appended (or moved to the front when its text carries a
module marker), then the recursion into that control's subtree extends the list. -/
def findEditControlsGo (recurse : Win → List Win) : List Win → List Win → List Win
  | acc, [] => acc
  | acc, c :: rest =>
    let acc1 :=
      if isEditClass c.className then
        (if promoText c.text then c :: acc else acc ++ [c])
      else acc
    findEditControlsGo recurse (acc1 ++ recurse c) rest

/-- Model of `VCMOverlay.find_edit_controls(parent, max_depth=5, current_depth=0)`. -/
def find_edit_controls (maxDepth currentDepth : Nat) (w : Win) : List Win :=
  if h : maxDepth < currentDepth then []
  else
    findEditControlsGo (fun c => find_edit_controls maxDepth (currentDepth + 1) c) [] w.children
termination_by maxDepth + 1 - currentDepth
decreasing_by omega

/-- Model of `VCMOverlay.is_parameter_text`: the text starts with `[ECM]` or `[TCM]`. -/
def is_parameter_text (text : String) : Bool :=
  pyStartsWith text "[ECM]" || pyStartsWith text "[TCM]"

/-- The selection loop of `auto_detect_parameter_edit_control`: the first control
whose text satisfies `is_parameter_text` is chosen. -/
def auto_detect_select (controls : List Win) : Option Win :=
  controls.find? (fun c => is_parameter_text c.text)

/-! ## Firestore store model (firebase_service.py, manage_pending.py, vcm_overlay.py)

A document is a string-keyed association list observed through `Doc.get?`;
earlier bindings shadow later ones, so every operation below implements the
corresponding Python `dict` / Firestore operation with respect to that
observation.  Firestore booleans are encoded as the strings `"true"`/`"false"`,
and `firestore.SERVER_TIMESTAMP` as the string constant `serverTimestamp`. -/

abbrev Doc := List (String × String)

def Doc.get? (d : Doc) (k : String) : Option String :=
  (d.find? (fun p => p.1 == k)).map (fun p => p.2)

def Doc.eraseKey (d : Doc) (k : String) : Doc :=
  d.filter (fun p => p.1 != k)

/-- Python `d[k] = v`. -/
def Doc.set (d : Doc) (k v : String) : Doc := (k, v) :: d.eraseKey k

/-- Firestore `document.update(src)` / Python `dict.update`: bindings of `src`
override those of `dst`. -/
def Doc.merge (dst src : Doc) : Doc :=
  src ++ dst.filter (fun p => (src.get? p.1).isNone)

abbrev Collection := List (Nat × Doc)

/-- Firestore `collection.where('param_id', '==', pid).limit(1).get()`. -/
def Collection.queryParamId (c : Collection) (pid : Option String) : Option (Nat × Doc) :=
  c.find? (fun e => e.2.get? "param_id" == pid)

/-- Firestore `collection.document(docId).update(data)`. -/
def Collection.updateDoc (c : Collection) (docId : Nat) (data : Doc) : Collection :=
  c.map (fun e => if e.1 = docId then (e.1, e.2.merge data) else e)

/-- Firestore `collection.add(data)` with the fresh document id supplied by the caller. -/
def Collection.addDoc (c : Collection) (docId : Nat) (data : Doc) : Collection :=
  c ++ [(docId, data)]

/-- Firestore `collection.document(docId).delete()`. -/
def Collection.deleteDoc (c : Collection) (docId : Nat) : Collection :=
  c.filter (fun e => e.1 != docId)

/-- The remote store: the `users`, `parameters`, `pending` and
`rejected_parameters` collections, plus a fresh-document-id counter. -/
structure DB where
  users : List (String × Doc)
  parameters : Collection
  pending : Collection
  rejected : Collection
  nextId : Nat
deriving DecidableEq

structure UserAuth where
  uid : String
  email : String
deriving DecidableEq

def serverTimestamp : String := "SERVER_TIMESTAMP"

def importantFields : List String := ["name", "description", "details"]

/-- Model of `firebase_service.check_parameter_changes` (Firestore path, lines 830-885):
look the parameter up by `param_id`; report a change when some tracked field is
present on both sides with different whitespace-stripped values. -/
def check_parameter_changes (db : DB) (param_id : String) (param_data : Doc) :
    Bool × Option Doc :=
  match db.parameters.queryParamId (some param_id) with
  | none => (true, none)
  | some e =>
    let existing := e.2
    let diff := importantFields.any (fun f =>
      match param_data.get? f, existing.get? f with
      | some nv, some ev => pyStrip nv != pyStrip ev
      | _, _ => false)
    (diff, some existing)

/-- The enrichment step of `save_parameter_to_firebase` (lines 334-369):
stamp `updated_by`, record `new_<field>`/`old_<field>` pairs for the tracked
fields, then derive `new_value`/`old_value` from details, else description,
else name. -/
def enrich_param_data (email : String) (param_data : Doc) (existing : Option Doc) : Doc :=
  let e := param_data.set "updated_by" email
  let e := importantFields.foldl (fun acc f =>
    match param_data.get? f with
    | none => acc
    | some v =>
      let acc := acc.set ("new_" ++ f) v
      match existing with
      | some ex => acc.set ("old_" ++ f) ((ex.get? f).getD "")
      | none => acc.set ("old_" ++ f) "") e
  if (e.get? "new_details").isSome && (e.get? "old_details").isSome then
    (e.set "new_value" ((e.get? "new_details").getD "")).set "old_value"
      ((e.get? "old_details").getD "")
  else if (e.get? "new_description").isSome && (e.get? "old_description").isSome then
    (e.set "new_value" ((e.get? "new_description").getD "")).set "old_value"
      ((e.get? "old_description").getD "")
  else if (e.get? "new_name").isSome && (e.get? "old_name").isSome then
    (e.set "new_value" ((e.get? "new_name").getD "")).set "old_value"
      ((e.get? "old_name").getD "")
  else e

/-- The role gate of `save_parameter_to_firebase` (lines 374-380):
`user_data.get('role') == 'admin' and user_data.get('trusted', False)`. -/
def user_is_admin (db : DB) (uid : String) : Bool :=
  match (db.users.find? (fun p => p.1 == uid)).map (fun p => p.2) with
  | some ud => (ud.get? "role" == some "admin") && (ud.get? "trusted" == some "true")
  | none => false

inductive SaveResult where
  | noChanges
  | updatedParameters
  | addedParameters
  | updatedPending
  | addedPending
deriving DecidableEq

/-- Model of `firebase_service.save_parameter_to_firebase` (Firestore path, lines 326-427),
for a signed-in user: the no-change gate, enrichment, then role routing into
the `parameters` or `pending` collection, each an upsert located by a
`param_id` equality query. -/
def save_parameter_to_firebase (db : DB) (user : UserAuth) (param_id : String)
    (param_data : Doc) : SaveResult × DB :=
  let chk := check_parameter_changes db param_id param_data
  if !chk.1 then (.noChanges, db)
  else
    let enriched := enrich_param_data user.email param_data chk.2
    let enriched := enriched.set "updated_at" serverTimestamp
    if user_is_admin db user.uid then
      let enriched := enriched.set "param_id" param_id
      match db.parameters.queryParamId (some param_id) with
      | some e =>
        (.updatedParameters, { db with parameters := db.parameters.updateDoc e.1 enriched })
      | none =>
        let enriched := (enriched.set "approved_by" user.email).set "approved_at" serverTimestamp
        (.addedParameters,
          { db with parameters := db.parameters.addDoc db.nextId enriched
                    nextId := db.nextId + 1 })
    else
      let enriched := (((enriched.set "param_id" param_id).set "submitted_by" user.email).set
          "submitted_at" serverTimestamp).set "status" "pending"
      match db.pending.queryParamId (some param_id) with
      | some e =>
        (.updatedPending, { db with pending := db.pending.updateDoc e.1 enriched })
      | none =>
        (.addedPending,
          { db with pending := db.pending.addDoc db.nextId enriched
                    nextId := db.nextId + 1 })

/-- Model of `ManagePendingDialog.approve_parameter` (vcm_overlay.py, Firestore branch,
lines 3311-3340): stamp approval metadata, upsert into `parameters` located by a
`param_id` query, then delete the pending document.  `docId` is the pending
document's id (the popped `id` field); `pdoc` its stored fields. -/
def approve_parameter (db : DB) (adminEmail : String) (docId : Nat) (pdoc : Doc) : DB :=
  let approved := (((pdoc.eraseKey "submitted_at_formatted").set "status" "approved").set
      "approved_by" adminEmail).set "approved_at" serverTimestamp
  let db1 :=
    match db.parameters.queryParamId (pdoc.get? "param_id") with
    | some e => { db with parameters := db.parameters.updateDoc e.1 approved }
    | none =>
      { db with parameters := db.parameters.addDoc db.nextId approved
                nextId := db.nextId + 1 }
  { db1 with pending := db1.pending.deleteDoc docId }

/-- Model of `manage_pending.manage_pending_parameters`, approve action (Firestore branch,
lines 123-150): the same canonical upsert, but the pending document is updated
with approval metadata instead of being deleted. -/
def manage_pending_approve (db : DB) (adminEmail : String) (docId : Nat) (pdoc : Doc) : DB :=
  let approved := ((pdoc.set "status" "approved").set "approved_by" adminEmail).set
      "approved_at" serverTimestamp
  let db1 :=
    match db.parameters.queryParamId (pdoc.get? "param_id") with
    | some e => { db with parameters := db.parameters.updateDoc e.1 approved }
    | none =>
      { db with parameters := db.parameters.addDoc db.nextId approved
                nextId := db.nextId + 1 }
  let stamp : Doc :=
    [("status", "approved"), ("approved_by", adminEmail), ("approved_at", serverTimestamp)]
  { db1 with pending := db1.pending.updateDoc docId stamp }

/-- Model of `ManagePendingDialog.reject_parameter` (vcm_overlay.py, Firestore branch,
lines 3399-3413): delete the pending document; nothing else is written. -/
def reject_parameter (db : DB) (docId : Nat) : DB :=
  { db with pending := db.pending.deleteDoc docId }

/-- Model of `manage_pending.manage_pending_parameters`, reject action (Firestore branch,
lines 152-163): update the pending document in place with rejection metadata. -/
def manage_pending_reject (db : DB) (adminEmail reason : String) (docId : Nat) : DB :=
  let stamp : Doc :=
    [("status", "rejected"), ("rejected_by", adminEmail),
     ("rejected_at", serverTimestamp), ("rejection_reason", reason)]
  { db with pending := db.pending.updateDoc docId stamp }

/-! ## Token-refresh retry skeleton (firebase_service.py, lines 469-483, 279-305)

The exception handler of `save_parameter_to_firebase`: each write attempt `k`
produces a store outcome; an `UNAUTHORIZED`/`401` outcome triggers
`refresh_token()` and, when the refresh succeeds, a recursive re-run of the
whole function.  `fuel` bounds the modelled execution: a `none` result means the
recursion has not finished within `fuel` attempts.  The second component of a
`some` result counts the write attempts performed. -/

inductive WriteOutcome where
  | ok
  | permissionDenied
  | unauthorized
deriving DecidableEq

inductive SaveOutcome where
  | success
  | permissionError
  | authError
deriving DecidableEq

def save_retry (write : Nat → WriteOutcome) (refreshOk : Nat → Bool) :
    Nat → Nat → Option (SaveOutcome × Nat)
  | _, 0 => none
  | k, fuel + 1 =>
    match write k with
    | .ok => some (.success, k + 1)
    | .permissionDenied => some (.permissionError, k + 1)
    | .unauthorized =>
      if refreshOk k then save_retry write refreshOk (k + 1) fuel
      else some (.authError, k + 1)

/-- A store that answers `unauthorized` to the first `n` write attempts and
`ok` afterwards. -/
def rampWrite (n : Nat) : Nat → WriteOutcome :=
  fun k => if k < n then .unauthorized else .ok

/-! ## Sample stores, identities and submissions used in concrete evaluations -/

def adminProfile : Doc := [("role", "admin"), ("trusted", "true")]

def plainProfile : Doc := [("role", "user"), ("trusted", "false")]

def adminAuth : UserAuth := ⟨"u-admin", "admin@example.com"⟩

def plainAuth : UserAuth := ⟨"u-user", "user@example.com"⟩

/-- Empty stores with both profiles registered. -/
def baseDB : DB :=
  { users := [("u-admin", adminProfile), ("u-user", plainProfile)]
    parameters := [], pending := [], rejected := [], nextId := 0 }

def submitECM : Doc := [("module_type", "ECM"), ("name", "N1"), ("details", "D1")]

def submitTCM : Doc := [("module_type", "TCM"), ("name", "N2"), ("details", "D2")]

/-- State after a non-privileged submission of (`ECM`, `100`). -/
def dbAfterFirstSubmit : DB :=
  (save_parameter_to_firebase baseDB plainAuth "100" submitECM).2

/-- State after a further non-privileged submission of (`TCM`, `100`). -/
def dbAfterSecondSubmit : DB :=
  (save_parameter_to_firebase dbAfterFirstSubmit plainAuth "100" submitTCM).2

def pendingSample : Doc :=
  [("param_id", "200"), ("name", "P"), ("details", "D"), ("status", "pending")]

/-- A store holding one canonical record and one pending contribution. -/
def dbWithPending : DB :=
  { users := [("u-admin", adminProfile)]
    parameters := [(0, [("param_id", "300"), ("name", "Canon")])]
    pending := [(1, pendingSample)], rejected := [], nextId := 2 }

def canonSample : Doc :=
  [("param_id", "7"), ("name", "A"), ("description", "B"), ("details", "C")]

/-- A store holding a canonical record for parameter `7`. -/
def dbWithCanon : DB :=
  { users := [("u-user", plainProfile)], parameters := [(0, canonSample)]
    pending := [], rejected := [], nextId := 1 }

/-- A resubmission of parameter `7` equal to the canonical record after trimming. -/
def sameSubmit : Doc := [("name", " A "), ("description", "B"), ("details", "C")]

/-- A resubmission of parameter `7` with a changed name. -/
def diffSubmit : Doc := [("name", "A2"), ("description", "B"), ("details", "C")]

/-! ## Helper lemmas -/

theorem toList_append (a b : String) : (a ++ b).toList = a.toList ++ b.toList := by
  simp [String.toList]

theorem listLeadsWith_append_of_le :
    ∀ (p m s : List Char), p.length ≤ m.length →
      listLeadsWith p (m ++ s) = listLeadsWith p m
  | [], _, _, _ => rfl
  | _ :: _, [], _, h => by simp at h
  | a :: as, b :: bs, s, h => by
    simp only [List.cons_append, listLeadsWith, List.append_eq]
    rw [listLeadsWith_append_of_le as bs s (by simpa using h)]

theorem pyStartsWith_append_of_le (m s p : String)
    (h : p.toList.length ≤ m.toList.length) :
    pyStartsWith (m ++ s) p = pyStartsWith m p := by
  unfold pyStartsWith
  rw [toList_append, listLeadsWith_append_of_le _ _ _ h]

/-! ## C6 -/

/-- C6: the parameter text parser on
`"[ECM] 12600 - Main Spark: High octane spark table"` yields type `ECM`, id
`"12600"`, name `"Main Spark"` (the leading `"- "` stripped exactly once) and
description `"High octane spark table"`; on the colon-free
`"[TCM] 42 - Shift Point"` it yields name `"Shift Point"` and an empty
description. -/
theorem update_parameter_info_parse_examples :
    update_parameter_info_parse "[ECM] 12600 - Main Spark: High octane spark table" =
      ⟨"ECM", some "12600", "Main Spark", "High octane spark table"⟩ ∧
    (update_parameter_info_parse "[TCM] 42 - Shift Point").name = "Shift Point" ∧
    (update_parameter_info_parse "[TCM] 42 - Shift Point").desc = "" := by
  refine ⟨?_, ?_, ?_⟩ <;> decide

/-! ## C7 -/

/-- C7: the old/new-value extraction yields `("10", "20")` on
`"Old Value: 10, New Value: 20"` and `("A", "B")` on `"Changed from A to B"`;
the marker-split, Changed-from/to and positional patterns are tried in that
fixed order, each pattern only when every earlier pattern's guard failed, and a
pattern whose guard holds always produces an old value (so later patterns run
only when earlier ones produced nothing). -/
theorem extract_values_examples_and_order :
    extract_values_from_details "Old Value: 10, New Value: 20" = (some "10", some "20") ∧
    extract_values_from_details "Changed from A to B" = (some "A", some "B") ∧
    (∀ d, (pyIn "Old Value:" d && pyIn "New Value:" d) = true →
      extract_values_from_details d = oldNewPattern1 d ∧
      (oldNewPattern1 d).1.isSome = true) ∧
    (∀ d, (pyIn "Old Value:" d && pyIn "New Value:" d) = false →
      (pyIn "Changed from" d && pyIn "to" d) = true →
      extract_values_from_details d = oldNewPattern2 d ∧
      (oldNewPattern2 d).1.isSome = true) ∧
    (∀ d, (pyIn "Old Value:" d && pyIn "New Value:" d) = false →
      (pyIn "Changed from" d && pyIn "to" d) = false → pyIn ":" d = true →
      extract_values_from_details d = oldNewPattern3Lines (d.splitOn "\n")) := by
  refine ⟨by decide, by decide, ?_, ?_, ?_⟩
  · intro d h
    refine ⟨by simp [extract_values_from_details, h], ?_⟩
    have h1 : (splitFirst d "Old Value:").isSome = true :=
      ((Bool.and_eq_true _ _).mp h).1
    obtain ⟨p, hp⟩ := Option.isSome_iff_exists.mp h1
    have ha : afterFirst? d "Old Value:" = some p.2 := by
      rw [afterFirst?, hp]; rfl
    unfold oldNewPattern1
    rw [ha]
    cases hsnd : afterFirst? p.2 "New Value:" <;> simp [hsnd]
  · intro d h1 h2
    refine ⟨by simp [extract_values_from_details, h1, h2], ?_⟩
    have hin : (splitFirst d "Changed from").isSome = true :=
      ((Bool.and_eq_true _ _).mp h2).1
    obtain ⟨p, hp⟩ := Option.isSome_iff_exists.mp hin
    have ha : afterFirst? d "Changed from" = some p.2 := by
      rw [afterFirst?, hp]; rfl
    unfold oldNewPattern2
    rw [ha]
    cases hsnd : afterFirst? p.2 "to" <;> simp [hsnd]
  · intro d h1 h2 h3
    simp [extract_values_from_details, h1, h2, h3]

/-- Witness for C7: the ordering statements applied at concrete blobs. -/
theorem extract_values_order_witness :
    extract_values_from_details "Old Value: 1, New Value: 2" =
      oldNewPattern1 "Old Value: 1, New Value: 2" ∧
    extract_values_from_details "Changed from X to Y" =
      oldNewPattern2 "Changed from X to Y" ∧
    extract_values_from_details "k: v\nold\nnew" =
      oldNewPattern3Lines (("k: v\nold\nnew").splitOn "\n") :=
  ⟨(extract_values_examples_and_order.2.2.1 _ (by decide)).1,
   (extract_values_examples_and_order.2.2.2.1 _ (by decide) (by decide)).1,
   extract_values_examples_and_order.2.2.2.2 _ (by decide) (by decide) (by decide)⟩

/-! ## C9 -/

theorem findEditControlsGo_all (recurse : Win → List Win)
    (hr : ∀ c x, x ∈ recurse c → isEditClass x.className = true) :
    ∀ (cs acc : List Win), (∀ x ∈ acc, isEditClass x.className = true) →
      ∀ x ∈ findEditControlsGo recurse acc cs, isEditClass x.className = true := by
  intro cs
  induction cs with
  | nil => intro acc hacc x hx; exact hacc x hx
  | cons c rest ih =>
    intro acc hacc x hx
    rw [findEditControlsGo] at hx
    refine ih _ ?_ x hx
    intro y hy
    rcases List.mem_append.mp hy with hy1 | hy2
    · by_cases hedit : isEditClass c.className
      · by_cases hpromo : promoText c.text
        · simp only [hedit, hpromo, if_true] at hy1
          rcases List.mem_cons.mp hy1 with rfl | hy1
          · exact hedit
          · exact hacc _ hy1
        · simp only [hedit, hpromo, if_true, if_false] at hy1
          rcases List.mem_append.mp hy1 with hy1 | hy1
          · exact hacc _ hy1
          · rcases List.mem_singleton.mp hy1 with rfl
            exact hedit
      · simp only [hedit, if_false] at hy1
        exact hacc _ hy1
    · exact hr c y hy2

theorem find_edit_controls_all (n : Nat) :
    ∀ (maxDepth currentDepth : Nat) (w : Win), maxDepth + 1 - currentDepth ≤ n →
      ∀ x ∈ find_edit_controls maxDepth currentDepth w, isEditClass x.className = true := by
  induction n with
  | zero =>
    intro maxDepth currentDepth w hn x hx
    unfold find_edit_controls at hx
    have h : maxDepth < currentDepth := by omega
    rw [dif_pos h] at hx
    simp at hx
  | succ n ih =>
    intro maxDepth currentDepth w hn x hx
    unfold find_edit_controls at hx
    by_cases h : maxDepth < currentDepth
    · rw [dif_pos h] at hx; simp at hx
    · rw [dif_neg h] at hx
      exact findEditControlsGo_all _
        (fun c y hy => ih maxDepth (currentDepth + 1) c (by omega) y hy)
        _ _ (by simp) x hx

/-- C9: every handle returned by `find_edit_controls` has a class name
containing `"edit"` case-insensitively; a control whose class name lacks
`"edit"` is never in the returned list, at any depth. -/
theorem find_edit_controls_only_edit_classes (maxDepth currentDepth : Nat) (w : Win) :
    (find_edit_controls maxDepth currentDepth w).all
      (fun x => isEditClass x.className) = true := by
  rw [List.all_eq_true]
  intro x hx
  exact find_edit_controls_all (maxDepth + 1 - currentDepth) maxDepth currentDepth w
    le_rfl x hx

/-! ## C10 -/

/-- C10: `is_parameter_text` holds exactly for texts starting with the literal
`[ECM]` or `[TCM]`; texts carrying any other grammar module marker
(`[BCM]`, `[PCM]`, `[ICM]`, `[OTHER]`) are rejected, are never promoted by the
locator's tie-break guard, and any control selected by the auto-detection loop
satisfies `is_parameter_text`. -/
theorem is_parameter_text_characterization :
    (∀ s, is_parameter_text s = (pyStartsWith s "[ECM]" || pyStartsWith s "[TCM]")) ∧
    (∀ s, is_parameter_text ("[BCM]" ++ s) = false) ∧
    (∀ s, is_parameter_text ("[PCM]" ++ s) = false) ∧
    (∀ s, is_parameter_text ("[ICM]" ++ s) = false) ∧
    (∀ s, is_parameter_text ("[OTHER]" ++ s) = false) ∧
    (∀ s, promoText ("[BCM]" ++ s) = false) ∧
    (∀ s, promoText ("[PCM]" ++ s) = false) ∧
    (∀ s, promoText ("[ICM]" ++ s) = false) ∧
    (∀ s, promoText ("[OTHER]" ++ s) = false) ∧
    (∀ cs, ((auto_detect_select cs).map (fun c => is_parameter_text c.text)).getD true
      = true) := by
  have hmk : ∀ (m : String), "[ECM]".toList.length ≤ m.toList.length →
      "[TCM]".toList.length ≤ m.toList.length →
      pyStartsWith m "[ECM]" = false → pyStartsWith m "[TCM]" = false →
      ∀ s, is_parameter_text (m ++ s) = false := by
    intro m h1 h2 h3 h4 s
    rw [is_parameter_text, pyStartsWith_append_of_le m s _ h1,
      pyStartsWith_append_of_le m s _ h2, h3, h4]
    rfl
  have hmp : ∀ (m : String), (∀ s, is_parameter_text (m ++ s) = false) →
      ∀ s, promoText (m ++ s) = false := by
    intro m hm s
    have := hm s
    rw [is_parameter_text] at this
    rw [promoText, this, Bool.and_false]
  have hb := hmk "[BCM]" (by decide) (by decide) (by decide) (by decide)
  have hp := hmk "[PCM]" (by decide) (by decide) (by decide) (by decide)
  have hi := hmk "[ICM]" (by decide) (by decide) (by decide) (by decide)
  have ho := hmk "[OTHER]" (by decide) (by decide) (by decide) (by decide)
  refine ⟨fun s => rfl, hb, hp, hi, ho, hmp _ hb, hmp _ hp, hmp _ hi, hmp _ ho, ?_⟩
  intro cs
  cases hsel : auto_detect_select cs with
  | none => rfl
  | some c =>
    have := List.find?_some hsel
    simp [this]

/-! ## C3 -/

theorem save_retry_ramp (n : Nat) :
    ∀ (fuel k : Nat), k ≤ n → n - k < fuel →
      save_retry (rampWrite n) (fun _ => true) k fuel = some (.success, n + 1) := by
  intro fuel
  induction fuel with
  | zero => intro k h1 h2; omega
  | succ fuel ih =>
    intro k h1 h2
    by_cases hk : k < n
    · have : rampWrite n k = .unauthorized := by simp [rampWrite, hk]
      rw [save_retry, this]
      simp only [if_true]
      exact ih (k + 1) (by omega) (by omega)
    · have hkn : k = n := by omega
      subst hkn
      have : rampWrite k k = .ok := by simp [rampWrite]
      rw [save_retry, this]

/-- C3 counterexample: with store responses 401, 401, ok and always-succeeding
token refreshes, the handler performs a third write attempt and returns
success, whereas the claim mandates at most one token refresh and one retried
write before surfacing failure (at most two write attempts). -/
theorem save_retry_two_unauthorized_counterexample :
    save_retry (rampWrite 2) (fun _ => true) 0 10 = some (.success, 3) := by decide

/-- C3 amended: each expired-credential response whose token refresh succeeds
triggers a full retry via recursive self-call, so `n` consecutive 401 responses
produce `n + 1` write attempts — the retry count is unbounded over response
sequences rather than limited to one; failure is surfaced as soon as a refresh
fails. -/
theorem save_retry_unbounded_retries (n fuel : Nat) (h : n < fuel) :
    save_retry (rampWrite n) (fun _ => true) 0 fuel = some (.success, n + 1) ∧
    (∀ (write : Nat → WriteOutcome) (k m : Nat), write k = .unauthorized →
      save_retry write (fun _ => false) k (m + 1) = some (.authError, k + 1)) := by
  constructor
  · exact save_retry_ramp n fuel 0 (Nat.zero_le n) (by omega)
  · intro write k m hw
    rw [save_retry, hw]
    simp

/-- Witness for C3's amended theorem. -/
theorem save_retry_unbounded_retries_witness :
    save_retry (rampWrite 1) (fun _ => true) 0 5 = some (.success, 2) ∧
    save_retry (fun _ => WriteOutcome.unauthorized) (fun _ => false) 0 1 =
      some (.authError, 1) :=
  ⟨(save_retry_unbounded_retries 1 5 (by decide)).1,
   (save_retry_unbounded_retries 1 5 (by decide)).2 _ 0 0 rfl⟩

/-! ## Store lemmas -/

theorem Doc.find?_eraseKey_ne (d : Doc) (k k' : String) (h : k' ≠ k) :
    List.find? (fun p => p.1 == k') (Doc.eraseKey d k) =
      List.find? (fun p => p.1 == k') d := by
  unfold Doc.eraseKey
  rw [List.find?_filter]
  congr 1
  funext a
  by_cases ha : a.1 = k'
  · simp [ha, bne, h]
  · simp [ha]

theorem Doc.get?_set (d : Doc) (k v k' : String) :
    (d.set k v).get? k' = if k' = k then some v else d.get? k' := by
  by_cases h : k' = k
  · subst h
    simp [Doc.set, Doc.get?]
  · rw [if_neg h]
    unfold Doc.set Doc.get?
    rw [List.find?_cons_of_neg _ (by simp [Ne.symm h]),
      Doc.find?_eraseKey_ne d k k' h]

theorem Doc.get?_merge_of_src (dst src : Doc) (k v : String)
    (h : src.get? k = some v) : (dst.merge src).get? k = some v := by
  unfold Doc.merge
  unfold Doc.get? at h ⊢
  rw [List.find?_append]
  cases hf : List.find? (fun p => p.1 == k) src with
  | none => rw [hf] at h; simp at h
  | some pr =>
    rw [hf] at h
    simpa using h

theorem Collection.length_updateDoc (c : Collection) (i : Nat) (d : Doc) :
    (c.updateDoc i d).length = c.length := by
  unfold Collection.updateDoc
  exact List.length_map _ _

theorem Collection.mem_updateDoc_of_query (c : Collection) (pid : Option String)
    (e : Nat × Doc) (h : c.queryParamId pid = some e) (d : Doc) :
    (e.1, e.2.merge d) ∈ c.updateDoc e.1 d := by
  have hm : e ∈ c := List.mem_of_find?_eq_some h
  have hfe : (fun x : Nat × Doc => if x.1 = e.1 then (x.1, x.2.merge d) else x) e
      = (e.1, e.2.merge d) := by simp
  have hmm := List.mem_map_of_mem
    (fun x : Nat × Doc => if x.1 = e.1 then (x.1, x.2.merge d) else x) hm
  rw [hfe] at hmm
  exact hmm

/-! ## C1 -/

/-- C1: for a signed-in identity, when the change gate reports changes: a
privileged identity's submission leaves `pending` untouched and upserts into
the canonical `parameters` collection — updated in place when a record with the
`param_id` exists, else created with `approved_by`/`approved_at` stamped; a
non-privileged identity's submission leaves `parameters` untouched and writes
the record only into `pending`, stamped `status='pending'`, `submitted_by`,
`submitted_at`.  (A submission the gate classifies as unchanged writes nothing
at all; that behaviour is C8.) -/
theorem save_routes_by_privilege (db : DB) (u : UserAuth) (pid : String) (pd : Doc)
    (hch : (check_parameter_changes db pid pd).1 = true) :
    (user_is_admin db u.uid = true →
      (save_parameter_to_firebase db u pid pd).2.pending = db.pending ∧
      (if (db.parameters.queryParamId (some pid)).isSome then
        (save_parameter_to_firebase db u pid pd).2.parameters.length =
            db.parameters.length ∧
          ∃ en ∈ (save_parameter_to_firebase db u pid pd).2.parameters,
            en.2.get? "param_id" = some pid ∧
            en.2.get? "updated_at" = some serverTimestamp
      else
        ∃ dnew : Doc,
          (save_parameter_to_firebase db u pid pd).2.parameters =
              db.parameters ++ [(db.nextId, dnew)] ∧
          dnew.get? "param_id" = some pid ∧
          dnew.get? "approved_by" = some u.email ∧
          dnew.get? "approved_at" = some serverTimestamp)) ∧
    (user_is_admin db u.uid = false →
      (save_parameter_to_firebase db u pid pd).2.parameters = db.parameters ∧
      ∃ en ∈ (save_parameter_to_firebase db u pid pd).2.pending,
        en.2.get? "param_id" = some pid ∧
        en.2.get? "status" = some "pending" ∧
        en.2.get? "submitted_by" = some u.email ∧
        en.2.get? "submitted_at" = some serverTimestamp) := by
  constructor
  · intro hadm
    cases hq : db.parameters.queryParamId (some pid) with
    | some e =>
      have hred : save_parameter_to_firebase db u pid pd =
          (SaveResult.updatedParameters,
            { db with parameters := db.parameters.updateDoc e.1 (((enrich_param_data u.email pd (check_parameter_changes db pid pd).2).set "updated_at" serverTimestamp).set "param_id" pid) }) := by
        simp only [save_parameter_to_firebase, hch, hadm, hq, Bool.not_true,
          Bool.false_eq_true, if_false, if_true]
      rw [hred, if_pos (show ((some e).isSome) = true from rfl)]
      refine ⟨rfl, Collection.length_updateDoc _ _ _, ?_⟩
      refine ⟨(e.1, e.2.merge _), Collection.mem_updateDoc_of_query _ _ _ hq _, ?_, ?_⟩
      · exact Doc.get?_merge_of_src _ _ _ _ (by simp +decide [Doc.get?_set])
      · exact Doc.get?_merge_of_src _ _ _ _ (by simp +decide [Doc.get?_set])
    | none =>
      have hred : save_parameter_to_firebase db u pid pd =
          (SaveResult.addedParameters,
            { db with parameters := db.parameters.addDoc db.nextId (((((enrich_param_data u.email pd (check_parameter_changes db pid pd).2).set "updated_at" serverTimestamp).set "param_id" pid).set "approved_by" u.email).set "approved_at" serverTimestamp), nextId := db.nextId + 1 }) := by
        simp only [save_parameter_to_firebase, hch, hadm, hq, Bool.not_true,
          Bool.false_eq_true, if_false, if_true]
      rw [hred, if_neg (show ¬((Option.isSome (none : Option (Nat × Doc))) = true) from by simp)]
      refine ⟨rfl, _, rfl, ?_, ?_, ?_⟩
      · simp +decide [Doc.get?_set]
      · simp +decide [Doc.get?_set]
      · simp +decide [Doc.get?_set]
  · intro hadm
    cases hq : db.pending.queryParamId (some pid) with
    | some e =>
      have hred : save_parameter_to_firebase db u pid pd =
          (SaveResult.updatedPending,
            { db with pending := db.pending.updateDoc e.1 ((((((enrich_param_data u.email pd (check_parameter_changes db pid pd).2).set "updated_at" serverTimestamp).set "param_id" pid).set "submitted_by" u.email).set "submitted_at" serverTimestamp).set "status" "pending") }) := by
        simp only [save_parameter_to_firebase, hch, hadm, hq, Bool.not_true,
          Bool.false_eq_true, if_false]
      rw [hred]
      refine ⟨rfl, (e.1, e.2.merge _), Collection.mem_updateDoc_of_query _ _ _ hq _,
        ?_, ?_, ?_, ?_⟩ <;>
        exact Doc.get?_merge_of_src _ _ _ _ (by simp +decide [Doc.get?_set])
    | none =>
      have hred : save_parameter_to_firebase db u pid pd =
          (SaveResult.addedPending,
            { db with pending := db.pending.addDoc db.nextId ((((((enrich_param_data u.email pd (check_parameter_changes db pid pd).2).set "updated_at" serverTimestamp).set "param_id" pid).set "submitted_by" u.email).set "submitted_at" serverTimestamp).set "status" "pending"), nextId := db.nextId + 1 }) := by
        simp only [save_parameter_to_firebase, hch, hadm, hq, Bool.not_true,
          Bool.false_eq_true, if_false]
      rw [hred]
      refine ⟨rfl, (db.nextId, _), List.mem_append_right _ (List.mem_singleton.mpr rfl),
        ?_, ?_, ?_, ?_⟩ <;> simp +decide [Doc.get?_set]

/-- Witness for C1: a privileged submission into empty stores leaves `pending`
untouched, and a non-privileged one leaves `parameters` untouched. -/
theorem save_routes_by_privilege_witness :
    (save_parameter_to_firebase baseDB adminAuth "7" submitECM).2.pending =
      baseDB.pending ∧
    (save_parameter_to_firebase baseDB plainAuth "7" submitECM).2.parameters =
      baseDB.parameters :=
  ⟨((save_routes_by_privilege baseDB adminAuth "7" submitECM (by decide)).1
      (by decide)).1,
   ((save_routes_by_privilege baseDB plainAuth "7" submitECM (by decide)).2
      (by decide)).1⟩

/-! ## C2 -/

/-- C2 counterexample: two non-privileged submissions sharing `param_id = 100`
but with module types `ECM` and then `TCM` end up in a single pending entry —
the second overwrites the first (its `module_type` becomes `TCM`), because the
pending upsert is located by `param_id` alone; the claim requires two entries
under distinct `(module_type, param_id)` keys. -/
theorem pending_key_ignores_module_type_counterexample :
    dbAfterFirstSubmit.pending.length = 1 ∧
    ((dbAfterFirstSubmit.pending.headD (0, [])).2.get? "module_type" = some "ECM") ∧
    dbAfterSecondSubmit.pending.length = 1 ∧
    ((dbAfterSecondSubmit.pending.headD (0, [])).2.get? "module_type" = some "TCM") ∧
    ((dbAfterSecondSubmit.pending.headD (0, [])).2.get? "param_id" = some "100") := by
  decide

/-- C2 amended: store writes are upserts keyed by `param_id` alone: a second
submission with the same `param_id` overwrites the existing pending entry
rather than duplicating it, regardless of its `module_type` — `module_type` is
not part of the storage key. -/
theorem pending_upsert_keyed_by_param_id (db : DB) (u : UserAuth) (pid : String)
    (pd : Doc) (hadm : user_is_admin db u.uid = false)
    (hch : (check_parameter_changes db pid pd).1 = true)
    (hex : (db.pending.queryParamId (some pid)).isSome = true) :
    (save_parameter_to_firebase db u pid pd).2.pending.length = db.pending.length := by
  obtain ⟨e, he⟩ := Option.isSome_iff_exists.mp hex
  simp only [save_parameter_to_firebase, hch, hadm, he, Bool.not_true,
    Bool.false_eq_true, if_false]
  exact Collection.length_updateDoc _ _ _

/-- Witness for C2's amended theorem: resubmitting `param_id = 100` with a
different module type keeps the pending store's size unchanged. -/
theorem pending_upsert_keyed_by_param_id_witness :
    (save_parameter_to_firebase dbAfterFirstSubmit plainAuth "100"
        submitTCM).2.pending.length = dbAfterFirstSubmit.pending.length :=
  pending_upsert_keyed_by_param_id dbAfterFirstSubmit plainAuth "100" submitTCM
    (by decide) (by decide) (by decide)

/-! ## C4 -/

/-- C4 counterexample: the CLI management tool's approve keeps the contribution
in the pending store (updating its status to `approved`) instead of removing
it, contradicting the claim that approve removes the record from the pending
store. -/
theorem approve_cli_keeps_pending_counterexample :
    (manage_pending_approve dbWithPending "admin@example.com" 1
        pendingSample).pending.length = 1 ∧
    ((manage_pending_approve dbWithPending "admin@example.com" 1
        pendingSample).pending.headD (0, [])).2.get? "status" = some "approved" := by
  decide

/-- C4 amended: the dialog's approve removes the record from the pending store
and produces or updates exactly one canonical record (located by `param_id`,
updated in place when present, created otherwise) stamped `status='approved'`,
`approved_by` and `approved_at`; the CLI tool's approve performs the same
canonical upsert but retains the pending record, updating it in place with the
approval stamps instead of deleting it. -/
theorem approve_semantics (db : DB) (email : String) (docId : Nat) (pdoc : Doc) :
    (approve_parameter db email docId pdoc).pending =
        db.pending.deleteDoc docId ∧
    (approve_parameter db email docId pdoc).parameters.length =
      (if (db.parameters.queryParamId (pdoc.get? "param_id")).isSome then
        db.parameters.length else db.parameters.length + 1) ∧
    (∃ en ∈ (approve_parameter db email docId pdoc).parameters,
      en.2.get? "status" = some "approved" ∧
      en.2.get? "approved_by" = some email ∧
      en.2.get? "approved_at" = some serverTimestamp) ∧
    (manage_pending_approve db email docId pdoc).pending =
      db.pending.updateDoc docId
        ([("status", "approved"), ("approved_by", email),
          ("approved_at", serverTimestamp)]) ∧
    (manage_pending_approve db email docId pdoc).pending.length = db.pending.length ∧
    (∃ en ∈ (manage_pending_approve db email docId pdoc).parameters,
      en.2.get? "status" = some "approved" ∧
      en.2.get? "approved_by" = some email ∧
      en.2.get? "approved_at" = some serverTimestamp) := by
  have happ : ∀ base : Doc,
      ((((base.set "status" "approved").set "approved_by" email).set
          "approved_at" serverTimestamp).get? "status" = some "approved") ∧
      ((((base.set "status" "approved").set "approved_by" email).set
          "approved_at" serverTimestamp).get? "approved_by" = some email) ∧
      ((((base.set "status" "approved").set "approved_by" email).set
          "approved_at" serverTimestamp).get? "approved_at" = some serverTimestamp) := by
    intro base
    refine ⟨?_, ?_, ?_⟩ <;> simp +decide [Doc.get?_set]
  cases hq : db.parameters.queryParamId (pdoc.get? "param_id") with
  | some e =>
    have hred1 : approve_parameter db email docId pdoc =
        { db with parameters := db.parameters.updateDoc e.1 ((((pdoc.eraseKey "submitted_at_formatted").set "status" "approved").set "approved_by" email).set "approved_at" serverTimestamp), pending := db.pending.deleteDoc docId } := by
      simp only [approve_parameter, hq]
    have hred2 : manage_pending_approve db email docId pdoc =
        { db with parameters := db.parameters.updateDoc e.1 (((pdoc.set "status" "approved").set "approved_by" email).set "approved_at" serverTimestamp), pending := db.pending.updateDoc docId ([("status", "approved"), ("approved_by", email), ("approved_at", serverTimestamp)]) } := by
      simp only [manage_pending_approve, hq]
    rw [hred1, hred2, if_pos (show ((some e).isSome) = true from rfl)]
    exact ⟨rfl, Collection.length_updateDoc _ _ _,
      ⟨(e.1, e.2.merge _), Collection.mem_updateDoc_of_query _ _ _ hq _,
        Doc.get?_merge_of_src _ _ _ _ (happ _).1,
        Doc.get?_merge_of_src _ _ _ _ (happ _).2.1,
        Doc.get?_merge_of_src _ _ _ _ (happ _).2.2⟩,
      rfl, Collection.length_updateDoc _ _ _,
      ⟨(e.1, e.2.merge _), Collection.mem_updateDoc_of_query _ _ _ hq _,
        Doc.get?_merge_of_src _ _ _ _ (happ _).1,
        Doc.get?_merge_of_src _ _ _ _ (happ _).2.1,
        Doc.get?_merge_of_src _ _ _ _ (happ _).2.2⟩⟩
  | none =>
    have hred1 : approve_parameter db email docId pdoc =
        { db with parameters := db.parameters.addDoc db.nextId ((((pdoc.eraseKey "submitted_at_formatted").set "status" "approved").set "approved_by" email).set "approved_at" serverTimestamp), nextId := db.nextId + 1, pending := db.pending.deleteDoc docId } := by
      simp only [approve_parameter, hq]
    have hred2 : manage_pending_approve db email docId pdoc =
        { db with parameters := db.parameters.addDoc db.nextId (((pdoc.set "status" "approved").set "approved_by" email).set "approved_at" serverTimestamp), nextId := db.nextId + 1, pending := db.pending.updateDoc docId ([("status", "approved"), ("approved_by", email), ("approved_at", serverTimestamp)]) } := by
      simp only [manage_pending_approve, hq]
    rw [hred1, hred2, if_neg (show ¬((Option.isSome (none : Option (Nat × Doc))) = true) from by simp)]
    exact ⟨rfl, by simp [Collection.addDoc],
      ⟨(db.nextId, _), List.mem_append_right _ (List.mem_singleton.mpr rfl),
        (happ _).1, (happ _).2.1, (happ _).2.2⟩,
      rfl, Collection.length_updateDoc _ _ _,
      ⟨(db.nextId, _), List.mem_append_right _ (List.mem_singleton.mpr rfl),
        (happ _).1, (happ _).2.1, (happ _).2.2⟩⟩

/-! ## C5 -/

/-- C5, evaluated at a failing input: rejecting the pending contribution leaves
the canonical `parameters` store unchanged (the claim's frame condition holds),
but the dialog's reject deletes the pending record outright and writes nothing
to the `rejected_parameters` store, while the CLI's reject stamps the rejection
metadata on the record inside the `pending` store — neither path retains the
record in the separate rejected store the claim (and the read side,
`get_user_contributions`) expects. -/
theorem reject_never_writes_rejected_store :
    (reject_parameter dbWithPending 1).parameters = dbWithPending.parameters ∧
    (reject_parameter dbWithPending 1).rejected = [] ∧
    (reject_parameter dbWithPending 1).pending = [] ∧
    (manage_pending_reject dbWithPending "admin@example.com" "bad data"
        1).parameters = dbWithPending.parameters ∧
    (manage_pending_reject dbWithPending "admin@example.com" "bad data"
        1).rejected = [] ∧
    ((manage_pending_reject dbWithPending "admin@example.com" "bad data"
        1).pending.headD (0, [])).2.get? "status" = some "rejected" := by
  decide

/-! ## C8 -/

/-- C8: when a canonical record for the parameter exists and every tracked
field (name, description, details) present on both sides is equal after
whitespace trimming, `save_parameter_to_firebase` reports no changes and
leaves every store exactly as it was (idempotent submission); when some
tracked field is present on both sides with values differing after trimming,
the submission proceeds. -/
theorem no_change_submission_idempotent (db : DB) (u : UserAuth) (pid : String)
    (pd : Doc) :
    (∀ i ex, db.parameters.queryParamId (some pid) = some (i, ex) →
      (∀ f ∈ importantFields, ∀ v w, pd.get? f = some v → ex.get? f = some w →
        pyStrip v = pyStrip w) →
      save_parameter_to_firebase db u pid pd = (.noChanges, db)) ∧
    (∀ i ex, db.parameters.queryParamId (some pid) = some (i, ex) →
      (∃ f ∈ importantFields, ∃ v w, pd.get? f = some v ∧ ex.get? f = some w ∧
        pyStrip v ≠ pyStrip w) →
      (save_parameter_to_firebase db u pid pd).1 ≠ SaveResult.noChanges) := by
  constructor
  · intro i ex hq heq
    have hchk : check_parameter_changes db pid pd = (false, some ex) := by
      unfold check_parameter_changes
      rw [hq]
      simp only [Prod.mk.injEq, and_true]
      rw [List.any_eq_false]
      intro f hf
      cases hv : pd.get? f with
      | none => simp
      | some v =>
        cases hw : ex.get? f with
        | none => simp
        | some w =>
          simp only [bne_iff_ne, ne_eq, Decidable.not_not]
          exact heq f hf v w hv hw
    simp [save_parameter_to_firebase, hchk]
  · intro i ex hq hdiff
    obtain ⟨f, hf, v, w, hv, hw, hne⟩ := hdiff
    have hchk : check_parameter_changes db pid pd = (true, some ex) := by
      unfold check_parameter_changes
      rw [hq]
      simp only [Prod.mk.injEq, and_true]
      rw [List.any_eq_true]
      exact ⟨f, hf, by rw [hv, hw]; simpa [bne_iff_ne] using hne⟩
    intro hres
    unfold save_parameter_to_firebase at hres
    rw [hchk] at hres
    simp only [Bool.not_true, Bool.false_eq_true, if_false] at hres
    split at hres <;> split at hres <;> simp_all

/-- Witness for C8: resubmitting the canonical record of parameter `7` with
only whitespace differences is a no-op; changing the name proceeds. -/
theorem no_change_submission_idempotent_witness :
    save_parameter_to_firebase dbWithCanon plainAuth "7" sameSubmit =
      (.noChanges, dbWithCanon) ∧
    (save_parameter_to_firebase dbWithCanon plainAuth "7" diffSubmit).1 ≠
      SaveResult.noChanges :=
  ⟨(no_change_submission_idempotent dbWithCanon plainAuth "7" sameSubmit).1 0
      canonSample (by decide)
      (by
        intro f hf v w hv hw
        simp only [importantFields, List.mem_cons, List.not_mem_nil, or_false] at hf
        rcases hf with rfl | rfl | rfl <;>
          simp +decide [sameSubmit, canonSample, Doc.get?] at hv hw <;>
          subst hv <;> subst hw <;> decide),
   (no_change_submission_idempotent dbWithCanon plainAuth "7" diffSubmit).2 0
      canonSample (by decide)
      ⟨"name", by decide, "A2", "A", by decide, by decide, by decide⟩⟩

end VCM
